import Mathlib

set_option maxHeartbeats 1000000

/-!
Verification development for the Redis-backed session middleware
(`fastapi-app/app/session.py`): data model, signer, store client and the
middleware state machine, with theorems about the session protocol.
-/

/-- JSON-style scalar values stored in the per-request session mapping. The
application stores flat claim values (user identity, role strings), so the
value universe is the scalar JSON values. -/
inductive JsonVal where
  | null : JsonVal
  | bool (b : Bool) : JsonVal
  | num (n : Int) : JsonVal
  | str (s : String) : JsonVal
  deriving DecidableEq, Repr

/-- Session Context data: a string-keyed mapping (a Python dict), modelled as
an ordered association list. Python truthiness of a dict is non-emptiness. -/
abbrev SessionData := List (String × JsonVal)

/-- A raw value held by the Redis store, at the granularity that `json.loads`
distinguishes: either the serialization of a dict (which always decodes back
to that dict), or bytes that fail to decode. -/
inductive StoreVal where
  | json (d : SessionData) : StoreVal
  | malformed (s : String) : StoreVal
  deriving DecidableEq, Repr

/-- Model of `json.dumps` applied to a dict: it always produces output that
decodes back to the same dict. -/
def json.dumps (d : SessionData) : StoreVal := StoreVal.json d

/-- Model of `json.loads`: decodes a serialized dict; raising on malformed
data is modelled by `none`. -/
def json.loads : StoreVal → Option SessionData
  | StoreVal.json d => some d
  | StoreVal.malformed _ => none

/-- Python truthiness of the raw value fetched from Redis (the `if raw:`
guard): a serialized dict is never the empty string, so it is always truthy;
malformed bytes are falsy exactly when they are the empty string. -/
def StoreVal.truthy : StoreVal → Bool
  | StoreVal.json _ => true
  | StoreVal.malformed s => s != ""

/-- The shared Redis store: keys mapped to values together with a TTL in
seconds (as set by `setex`). -/
structure Store where
  entries : List (String × StoreVal × Nat)
  deriving DecidableEq, Repr

/-- Model of `redis.get`: the value at a key, if present. -/
def Store.get (st : Store) (k : String) : Option StoreVal :=
  match st.entries.find? (fun e => e.1 == k) with
  | some e => some e.2.1
  | none => none

/-- Model of `redis.setex`: set a key to a value with an expiry of `ttl`
seconds, replacing any previous entry for that key. -/
def Store.setex (st : Store) (k : String) (ttl : Nat) (v : StoreVal) : Store :=
  ⟨(k, v, ttl) :: st.entries.filter (fun e => e.1 != k)⟩

/-- Model of `redis.delete`: remove a key (a no-op when absent). -/
def Store.delete (st : Store) (k : String) : Store :=
  ⟨st.entries.filter (fun e => e.1 != k)⟩

/-- Default session cookie name (`SESSION_COOKIE` in the source). -/
def SESSION_COOKIE : String := "session"

/-- Default session TTL in seconds (`SESSION_TTL = 14 * 24 * 3600`). -/
def SESSION_TTL : Nat := 14 * 24 * 3600

/-- Modelled from the spec: the Identifier Signer is the external
`itsdangerous.URLSafeSerializer`, which is not part of this repository.
Following section 4.1, signing appends a keyed tag to a URL-safe injective
encoding of the identifier; this function renders one hex digit. -/
def hexDigit (n : Nat) : Char :=
  if n < 10 then Char.ofNat (48 + n) else Char.ofNat (87 + n)

/-- Value of a hex digit character, failing on anything else. -/
def hexVal (c : Char) : Option Nat :=
  if 48 ≤ c.toNat ∧ c.toNat ≤ 57 then some (c.toNat - 48)
  else if 97 ≤ c.toNat ∧ c.toNat ≤ 102 then some (c.toNat - 87)
  else none

/-- Fixed-width rendering of a value below 16^6 as six hex digits. -/
def hex6 (n : Nat) : List Char :=
  [hexDigit (n / 1048576 % 16), hexDigit (n / 65536 % 16), hexDigit (n / 4096 % 16),
   hexDigit (n / 256 % 16), hexDigit (n / 16 % 16), hexDigit (n % 16)]

/-- Modelled from the spec: the URL-safe payload encoding of an identifier,
one six-hex-digit group per character (injective, dot-free, URL-safe). -/
def encChars : List Char → List Char
  | [] => []
  | c :: cs => hex6 c.toNat ++ encChars cs

/-- Decoder for `encChars`; fails on anything outside its exact image. -/
def decChars : List Char → Option (List Char)
  | [] => some []
  | c1 :: c2 :: c3 :: c4 :: c5 :: c6 :: rest =>
    Option.bind (hexVal c1) fun d1 =>
    Option.bind (hexVal c2) fun d2 =>
    Option.bind (hexVal c3) fun d3 =>
    Option.bind (hexVal c4) fun d4 =>
    Option.bind (hexVal c5) fun d5 =>
    Option.bind (hexVal c6) fun d6 =>
    let n := d1 * 1048576 + d2 * 65536 + d3 * 4096 + d4 * 256 + d5 * 16 + d6
    if _h : n.isValidChar then
      Option.bind (decChars rest) fun cs => some (Char.ofNat n :: cs)
    else none
  | _ => none

/-- Modelled from the spec: the keyed message authentication tag over the
payload, symmetric in the secret, rendered as six hex digits; it stands in
for the HMAC used by the external library. -/
def macNat (secret : String) (p : List Char) : Nat :=
  (secret.data ++ '|' :: p).foldl (fun a c => (a * 131 + c.toNat + 1) % 16777216) 5381

/-- Tag characters appended after the dot separator. -/
def tagChars (secret : String) (p : List Char) : List Char :=
  hex6 (macNat secret p)

/-- Split a character list at its last dot: the part before it and the
dot-free part after it (itsdangerous splits signed values this way). -/
def rsplitDot : List Char → Option (List Char × List Char)
  | [] => none
  | c :: rest =>
    match rsplitDot rest with
    | some (p, t) => some (c :: p, t)
    | none => if c = '.' then some ([], rest) else none

/-- Modelled from the spec: `sign(identifier)` for the external
`URLSafeSerializer` — the URL-safe payload encoding, a dot, and the keyed
tag over the payload. -/
def URLSafeSerializer.dumps (secret id : String) : String :=
  String.mk (encChars id.data ++ '.' :: tagChars secret (encChars id.data))

/-- Modelled from the spec: `verify(encoded)` for the external
`URLSafeSerializer` — recovers the identifier when the tag matches and fails
closed otherwise (the `BadSignature` outcome is modelled by `none`). -/
def URLSafeSerializer.loads (secret v : String) : Option String :=
  match rsplitDot v.data with
  | none => none
  | some (p, t) =>
    if t = tagChars secret p then
      match decChars p with
      | some cs => some (String.mk cs)
      | none => none
    else none

/-- Configuration of `RedisSessionMiddleware` (its constructor arguments with
their defaults; `redis_url` only locates the external store and plays no role
in the protocol logic). -/
structure RedisSessionMiddleware where
  secret_key : String
  redis_url : String := "redis://localhost:6379/0"
  session_cookie : String := SESSION_COOKIE
  max_age : Nat := SESSION_TTL
  https_only : Bool := false
  deriving DecidableEq, Repr

/-- An outbound ASGI message: its type and its raw headers. -/
structure Message where
  type : String
  headers : List (String × String)
  deriving DecidableEq, Repr

/-- The issued session cookie header value built in the non-empty branch of
`send_wrapper` (lines 90-98 of session.py). -/
def issueCookie (cfg : RedisSessionMiddleware) (signed : String) : String :=
  let cookie := cfg.session_cookie ++ "=" ++ signed ++
    "; Path=/; HttpOnly; Max-Age=" ++ toString cfg.max_age ++ "; SameSite=lax"
  if cfg.https_only then cookie ++ "; Secure" else cookie

/-- The clearing cookie header value built in the cleared branch of
`send_wrapper` (lines 107-111 of session.py). -/
def clearCookie (cfg : RedisSessionMiddleware) : String :=
  cfg.session_cookie ++ "=; Path=/; HttpOnly; Max-Age=0; SameSite=lax"

/-- The read phase of `RedisSessionMiddleware.__call__` (lines 48-65):
returns the retained `session_id` and the initial session data attached to
the scope. `readFails` models a raised store error on `redis.get`; the
`except` clause catches `BadSignature` and every store or decode error and
resets `session_id` to `None`, so a failed fetch or a malformed record
discards the identifier, while an absent record keeps it. -/
def readSession (cfg : RedisSessionMiddleware) :
    Option String → Store → Bool → Option String × SessionData
  | none, _, _ => (none, [])
  | some cv, store, readFails =>
    if cv = "" then (none, [])
    else
      match URLSafeSerializer.loads cfg.secret_key cv with
      | none => (none, [])
      | some sid =>
        if readFails then (none, [])
        else
          match store.get ("session:" ++ sid) with
          | none => (some sid, [])
          | some raw =>
            if raw.truthy then
              match json.loads raw with
              | some d => (some sid, d)
              | none => (none, [])
            else (some sid, [])

/-- `send_wrapper` (lines 67-113 of session.py): on `http.response.start`,
persist or delete the session and append a `Set-Cookie` header; every other
message passes through untouched. `setFails` and `delFails` model raised
store errors, swallowed by the code; `freshId` models the generated `uuid4`
identifier. -/
def send_wrapper (cfg : RedisSessionMiddleware) (session_id : Option String)
    (freshId : String) (session_data : SessionData) (store : Store)
    (setFails delFails : Bool) (msg : Message) : Store × Message :=
  if msg.type = "http.response.start" then
    if session_data ≠ [] then
      let new_id := match session_id with
        | none => freshId
        | some sid => sid
      let store1 := if setFails then store else
        store.setex ("session:" ++ new_id) cfg.max_age (json.dumps session_data)
      let signed := URLSafeSerializer.dumps cfg.secret_key new_id
      (store1, { msg with headers := msg.headers ++ [("set-cookie", issueCookie cfg signed)] })
    else
      match session_id with
      | some sid =>
        let store1 := if delFails then store else store.delete ("session:" ++ sid)
        (store1, { msg with headers := msg.headers ++ [("set-cookie", clearCookie cfg)] })
      | none => (store, msg)
  else (store, msg)

/-- The scope-type guard of `__call__` (line 44 of session.py): http and
websocket scopes are wrapped; everything else goes straight to the inner
app. -/
def scopeHandled (scopeType : String) : Bool :=
  scopeType == "http" || scopeType == "websocket"

/-- One full request through the middleware: the read phase, the downstream
handler mutating the Session Context, then the response-start message through
`send_wrapper`. Returns the end-of-request context, the resulting store, and
the (possibly header-extended) outbound message. -/
def processRequest (cfg : RedisSessionMiddleware) (cookie : Option String)
    (store : Store) (readFails setFails delFails : Bool)
    (handler : SessionData → SessionData) (freshId : String) (msg : Message) :
    SessionData × Store × Message :=
  let r := readSession cfg cookie store readFails
  let endData := handler r.2
  let s := send_wrapper cfg r.1 freshId endData store setFails delFails msg
  (endData, s.1, s.2)

/-- A hex digit below 16 renders and parses back to itself. -/
theorem hexVal_hexDigit (d : Nat) (hd : d < 16) : hexVal (hexDigit d) = some d := by
  interval_cases d <;> decide

/-- Conversion of a valid scalar into a character keeps its code point. -/
theorem toNat_ofNat_of_valid {n : Nat} (h : n.isValidChar) : (Char.ofNat n).toNat = n := by
  simp only [Char.ofNat]
  rw [dif_pos h]
  rfl

/-- A parsed hex digit renders back to the same character and is below 16. -/
theorem hexDigit_hexVal {c : Char} {d : Nat} (h : hexVal c = some d) :
    hexDigit d = c ∧ d < 16 := by
  unfold hexVal at h
  split_ifs at h with h1 h2
  · cases h
    refine ⟨?_, by omega⟩
    unfold hexDigit
    rw [if_pos (by omega)]
    have he : 48 + (c.toNat - 48) = c.toNat := by omega
    rw [he, Char.ofNat_toNat]
  · cases h
    refine ⟨?_, by omega⟩
    unfold hexDigit
    rw [if_neg (by omega)]
    have he : 87 + (c.toNat - 87) = c.toNat := by omega
    rw [he, Char.ofNat_toNat]

/-- Decoding inverts the payload encoding. -/
theorem decChars_encChars : ∀ cs : List Char, decChars (encChars cs) = some cs
  | [] => rfl
  | c :: cs => by
    have hvalid : c.toNat.isValidChar := c.valid
    have hlt : c.toNat < 16777216 := by
      rcases hvalid with h | ⟨h1, h2⟩ <;> omega
    have e1 := hexVal_hexDigit (c.toNat / 1048576 % 16) (Nat.mod_lt _ (by omega))
    have e2 := hexVal_hexDigit (c.toNat / 65536 % 16) (Nat.mod_lt _ (by omega))
    have e3 := hexVal_hexDigit (c.toNat / 4096 % 16) (Nat.mod_lt _ (by omega))
    have e4 := hexVal_hexDigit (c.toNat / 256 % 16) (Nat.mod_lt _ (by omega))
    have e5 := hexVal_hexDigit (c.toNat / 16 % 16) (Nat.mod_lt _ (by omega))
    have e6 := hexVal_hexDigit (c.toNat % 16) (Nat.mod_lt _ (by omega))
    have hsum : c.toNat / 1048576 % 16 * 1048576 + c.toNat / 65536 % 16 * 65536 +
        c.toNat / 4096 % 16 * 4096 + c.toNat / 256 % 16 * 256 +
        c.toNat / 16 % 16 * 16 + c.toNat % 16 = c.toNat := by omega
    simp only [encChars, hex6, List.cons_append, List.nil_append, decChars,
      e1, e2, e3, e4, e5, e6, Option.some_bind, hsum]
    rw [dif_pos hvalid]
    simp only [List.append_eq, List.nil_append, decChars_encChars cs]
    simp [Char.ofNat_toNat]

/-- Everything the decoder accepts is the encoding of its output. -/
theorem encChars_of_decChars : ∀ (p cs : List Char), decChars p = some cs → encChars cs = p
  | [], cs, h => by
    simp only [decChars, Option.some.injEq] at h
    subst h
    rfl
  | [c1], cs, h => by simp [decChars] at h
  | [c1, c2], cs, h => by simp [decChars] at h
  | [c1, c2, c3], cs, h => by simp [decChars] at h
  | [c1, c2, c3, c4], cs, h => by simp [decChars] at h
  | [c1, c2, c3, c4, c5], cs, h => by simp [decChars] at h
  | c1 :: c2 :: c3 :: c4 :: c5 :: c6 :: rest, cs, h => by
    simp only [decChars, Option.bind_eq_some] at h
    obtain ⟨d1, h1, d2, h2, d3, h3, d4, h4, d5, h5, d6, h6, hrest⟩ := h
    rw [dite_eq_iff] at hrest
    rcases hrest with ⟨hvn, hrest⟩ | ⟨_, hrest⟩
    · rw [Option.bind_eq_some] at hrest
      obtain ⟨cs0, hdec, hcs⟩ := hrest
      rw [Option.some.injEq] at hcs
      subst hcs
      obtain ⟨g1, b1⟩ := hexDigit_hexVal h1
      obtain ⟨g2, b2⟩ := hexDigit_hexVal h2
      obtain ⟨g3, b3⟩ := hexDigit_hexVal h3
      obtain ⟨g4, b4⟩ := hexDigit_hexVal h4
      obtain ⟨g5, b5⟩ := hexDigit_hexVal h5
      obtain ⟨g6, b6⟩ := hexDigit_hexVal h6
      have q1 : (d1 * 1048576 + d2 * 65536 + d3 * 4096 + d4 * 256 + d5 * 16 + d6) / 1048576 % 16 = d1 := by omega
      have q2 : (d1 * 1048576 + d2 * 65536 + d3 * 4096 + d4 * 256 + d5 * 16 + d6) / 65536 % 16 = d2 := by omega
      have q3 : (d1 * 1048576 + d2 * 65536 + d3 * 4096 + d4 * 256 + d5 * 16 + d6) / 4096 % 16 = d3 := by omega
      have q4 : (d1 * 1048576 + d2 * 65536 + d3 * 4096 + d4 * 256 + d5 * 16 + d6) / 256 % 16 = d4 := by omega
      have q5 : (d1 * 1048576 + d2 * 65536 + d3 * 4096 + d4 * 256 + d5 * 16 + d6) / 16 % 16 = d5 := by omega
      have q6 : (d1 * 1048576 + d2 * 65536 + d3 * 4096 + d4 * 256 + d5 * 16 + d6) % 16 = d6 := by omega
      have ih := encChars_of_decChars rest cs0 hdec
      simp only [encChars, hex6, toNat_ofNat_of_valid hvn, q1, q2, q3, q4, q5, q6,
        g1, g2, g3, g4, g5, g6, ih, List.cons_append, List.nil_append]
    · simp at hrest

/-- A dot-free list has no last-dot split. -/
theorem rsplitDot_of_no_dot : ∀ t : List Char, '.' ∉ t → rsplitDot t = none
  | [], _ => rfl
  | c :: rest, h => by
    simp only [List.mem_cons, not_or] at h
    obtain ⟨h1, h2⟩ := h
    have hc : c ≠ '.' := by
      intro hh
      exact h1 hh.symm
    simp [rsplitDot, rsplitDot_of_no_dot rest h2, hc]

/-- Splitting after appending a dot and a dot-free tail finds that dot. -/
theorem rsplitDot_append : ∀ (p t : List Char), '.' ∉ t →
    rsplitDot (p ++ '.' :: t) = some (p, t)
  | [], t, h => by simp [rsplitDot, rsplitDot_of_no_dot t h]
  | c :: p, t, h => by simp [rsplitDot, rsplitDot_append p t h]

/-- A successful split reassembles to the original list. -/
theorem eq_of_rsplitDot : ∀ (v p t : List Char), rsplitDot v = some (p, t) →
    v = p ++ '.' :: t
  | [], p, t, h => by simp [rsplitDot] at h
  | c :: rest, p, t, h => by
    simp only [rsplitDot] at h
    cases hr : rsplitDot rest with
    | some pt =>
      rw [hr] at h
      obtain ⟨p0, t0⟩ := pt
      simp only [Option.some.injEq, Prod.mk.injEq] at h
      obtain ⟨hp, ht⟩ := h
      rw [← hp, ← ht]
      have ih := eq_of_rsplitDot rest p0 t0 hr
      rw [ih]
      rfl
    | none =>
      rw [hr] at h
      by_cases hc : c = '.'
      · rw [if_pos hc] at h
        simp only [Option.some.injEq, Prod.mk.injEq] at h
        obtain ⟨hp, ht⟩ := h
        rw [← hp, ← ht, hc]
        rfl
      · rw [if_neg hc] at h
        simp at h

/-- No dot occurs among six hex digits. -/
theorem dot_not_mem_hex6 (n : Nat) : '.' ∉ hex6 n := by
  have h : ∀ d : Nat, d < 16 → hexDigit d ≠ '.' := by
    intro d hd
    interval_cases d <;> decide
  simp only [hex6, List.mem_cons, List.not_mem_nil, or_false, not_or]
  refine ⟨?_, ?_, ?_, ?_, ?_, ?_⟩ <;>
    exact fun hh => h _ (Nat.mod_lt _ (by omega)) hh.symm

/-- No dot occurs in a tag. -/
theorem dot_not_mem_tag (secret : String) (p : List Char) : '.' ∉ tagChars secret p := by
  simpa [tagChars] using dot_not_mem_hex6 (macNat secret p)

/-- Round trip of the Signer: verifying a signed identifier recovers it. -/
theorem loads_dumps (secret id : String) :
    URLSafeSerializer.loads secret (URLSafeSerializer.dumps secret id) = some id := by
  unfold URLSafeSerializer.loads URLSafeSerializer.dumps
  have hdata : (String.mk (encChars id.data ++ '.' :: tagChars secret (encChars id.data))).data
      = encChars id.data ++ '.' :: tagChars secret (encChars id.data) := rfl
  rw [hdata, rsplitDot_append _ _ (dot_not_mem_tag secret (encChars id.data))]
  simp only [if_pos rfl, decChars_encChars, if_true]

/-- Everything verification accepts is exactly a signed identifier. -/
theorem eq_dumps_of_loads {secret v id : String}
    (h : URLSafeSerializer.loads secret v = some id) :
    v = URLSafeSerializer.dumps secret id := by
  unfold URLSafeSerializer.loads at h
  split at h
  · simp at h
  · rename_i p t hs
    split at h
    · rename_i ht
      split at h
      · rename_i cs hd
        simp only [Option.some.injEq] at h
        have hp : encChars cs = p := encChars_of_decChars p cs hd
        have hv : v.data = p ++ '.' :: t := eq_of_rsplitDot _ _ _ hs
        subst h
        unfold URLSafeSerializer.dumps
        have hid : (String.mk cs).data = cs := rfl
        apply String.ext
        rw [hid, hp, hv, ht]
      · simp at h
    · simp at h

/-- Verification of the empty encoded value fails (no dot separator). -/
theorem loads_empty (secret : String) : URLSafeSerializer.loads secret "" = none := rfl

/-- With no cookie the read phase yields no identifier and empty data. -/
theorem readSession_no_cookie (cfg : RedisSessionMiddleware) (store : Store) (rf : Bool) :
    readSession cfg none store rf = (none, []) := rfl

/-- With a cookie that fails verification the read phase is anonymous. -/
theorem readSession_invalid (cfg : RedisSessionMiddleware) (store : Store) (rf : Bool)
    (v : String) (h : URLSafeSerializer.loads cfg.secret_key v = none) :
    readSession cfg (some v) store rf = (none, []) := by
  simp only [readSession]
  by_cases he : v = ""
  · rw [if_pos he]
  · rw [if_neg he, h]

/-- When the store read raises, the read phase discards the identifier. -/
theorem readSession_readFails (cfg : RedisSessionMiddleware) (store : Store) (v : String) :
    readSession cfg (some v) store true = (none, []) := by
  simp only [readSession]
  by_cases he : v = ""
  · rw [if_pos he]
  · rw [if_neg he]
    cases URLSafeSerializer.loads cfg.secret_key v <;> simp

/-- Outside `http.response.start`, the send wrapper touches nothing. -/
theorem send_wrapper_pass (cfg : RedisSessionMiddleware) (sid : Option String)
    (freshId : String) (endData : SessionData) (store : Store) (sf df : Bool)
    (msg : Message) (h : msg.type ≠ "http.response.start") :
    send_wrapper cfg sid freshId endData store sf df msg = (store, msg) := by
  simp [send_wrapper, h]

/-- Shape of every send-wrapper output: the message type is preserved and the
headers are either untouched or extended by exactly one appended set-cookie. -/
theorem send_wrapper_shape (cfg : RedisSessionMiddleware) (sid : Option String)
    (freshId : String) (endData : SessionData) (store : Store) (sf df : Bool)
    (msg : Message) :
    (send_wrapper cfg sid freshId endData store sf df msg).2.type = msg.type ∧
    ((send_wrapper cfg sid freshId endData store sf df msg).2.headers = msg.headers ∨
     ∃ c, (send_wrapper cfg sid freshId endData store sf df msg).2.headers =
       msg.headers ++ [("set-cookie", c)]) := by
  unfold send_wrapper
  by_cases h1 : msg.type = "http.response.start"
  · rw [if_pos h1]
    by_cases h2 : endData ≠ []
    · rw [if_pos h2]
      exact ⟨rfl, Or.inr ⟨_, rfl⟩⟩
    · rw [if_neg h2]
      cases sid with
      | some s => exact ⟨rfl, Or.inr ⟨_, rfl⟩⟩
      | none => exact ⟨rfl, Or.inl rfl⟩
  · rw [if_neg h1]
    exact ⟨rfl, Or.inl rfl⟩

/-- C1: a request that starts with no session cookie or with a cookie whose
signature fails verification, and whose Session Context is non-empty at
response start, stores the serialized context under the freshly generated
identifier with the configured TTL and emits a signed cookie for it; the
invalid-cookie case behaves exactly as the no-cookie case (both reduce to the
same anonymous read result and the same response actions). -/
theorem c1_fresh_session_store_and_cookie (cfg : RedisSessionMiddleware)
    (cookie : Option String) (store : Store) (rf df : Bool)
    (handler : SessionData → SessionData) (freshId : String) (msg : Message)
    (hanon : cookie = none ∨
      ∃ cv, cookie = some cv ∧ URLSafeSerializer.loads cfg.secret_key cv = none)
    (hne : handler [] ≠ [])
    (hmsg : msg.type = "http.response.start") :
    processRequest cfg cookie store rf false df handler freshId msg =
      (handler [],
       store.setex ("session:" ++ freshId) cfg.max_age (json.dumps (handler [])),
       { msg with headers := msg.headers ++
         [("set-cookie", issueCookie cfg (URLSafeSerializer.dumps cfg.secret_key freshId))] }) := by
  have hread : readSession cfg cookie store rf = (none, []) := by
    rcases hanon with h | ⟨cv, hcv, hl⟩
    · rw [h]
      rfl
    · rw [hcv]
      exact readSession_invalid cfg store rf cv hl
  simp only [processRequest, hread]
  simp [send_wrapper, hmsg, hne]

/-- Witness for C1 at a concrete anonymous request with a non-empty end state. -/
theorem c1_witness :
    processRequest { secret_key := "k" } none ⟨[]⟩ false false false
        (fun _ => [("u", JsonVal.str "1")]) "f" { type := "http.response.start", headers := [] } =
      ([("u", JsonVal.str "1")],
       ⟨[("session:f", StoreVal.json [("u", JsonVal.str "1")], 1209600)]⟩,
       { type := "http.response.start",
         headers := [("set-cookie",
           issueCookie { secret_key := "k" } (URLSafeSerializer.dumps "k" "f"))] }) :=
  (c1_fresh_session_store_and_cookie { secret_key := "k" } none ⟨[]⟩ false false
      (fun _ => [("u", JsonVal.str "1")]) "f" { type := "http.response.start", headers := [] }
      (Or.inl rfl) (by decide) rfl).trans (by decide)

/-- C6: verifying the signed encoding of any identifier with the same secret
recovers the identifier exactly. -/
theorem c6_verify_sign_roundtrip (secret id : String) :
    URLSafeSerializer.loads secret (URLSafeSerializer.dumps secret id) = some id :=
  loads_dumps secret id

/-- C7: any encoded value that is not exactly a valid signed encoding of some
identifier under the current secret verifies to an explicit invalid outcome
(never a partial identifier), and the middleware then treats the request as
anonymous. -/
theorem c7_fail_closed (cfg : RedisSessionMiddleware) (v : String) (store : Store)
    (rf : Bool) (h : ∀ id, v ≠ URLSafeSerializer.dumps cfg.secret_key id) :
    URLSafeSerializer.loads cfg.secret_key v = none ∧
    readSession cfg (some v) store rf = (none, []) := by
  have hl : URLSafeSerializer.loads cfg.secret_key v = none := by
    cases hc : URLSafeSerializer.loads cfg.secret_key v with
    | none => rfl
    | some id => exact absurd (eq_dumps_of_loads hc) (h id)
  exact ⟨hl, readSession_invalid cfg store rf v hl⟩

/-- Witness for C7 at a concrete malformed cookie value. -/
theorem c7_witness :
    URLSafeSerializer.loads "k" "x" = none ∧
    readSession { secret_key := "k" } (some "x") ⟨[]⟩ false = (none, []) :=
  c7_fail_closed { secret_key := "k" } "x" ⟨[]⟩ false (fun id heq => by
    have h2 := loads_dumps "k" id
    rw [← heq] at h2
    have h3 : URLSafeSerializer.loads "k" "x" = none := by decide
    rw [h3] at h2
    exact Option.noConfusion h2)

/-- C9: a request with no session cookie whose Session Context is still empty
at response start performs no store operation and adds no header: store and
message pass through unchanged. -/
theorem c9_no_cookie_empty_frame (cfg : RedisSessionMiddleware) (store : Store)
    (rf sf df : Bool) (handler : SessionData → SessionData) (freshId : String)
    (msg : Message) (hempty : handler [] = []) :
    processRequest cfg none store rf sf df handler freshId msg = ([], store, msg) := by
  simp only [processRequest, readSession_no_cookie, hempty]
  by_cases h : msg.type = "http.response.start" <;> simp [send_wrapper, h]

/-- Witness for C9 at a concrete cookie-less request with an empty end state. -/
theorem c9_witness :
    processRequest { secret_key := "k" } none ⟨[("session:a", StoreVal.json [], 5)]⟩
        false false false (fun d => d) "f" { type := "http.response.start", headers := [] } =
      ([], ⟨[("session:a", StoreVal.json [], 5)]⟩, { type := "http.response.start", headers := [] }) :=
  c9_no_cookie_empty_frame { secret_key := "k" } ⟨[("session:a", StoreVal.json [], 5)]⟩
    false false false (fun d => d) "f" { type := "http.response.start", headers := [] } rfl

/-- C10: the middleware wraps websocket scopes, but the send wrapper forwards
every message whose type is not http.response.start unchanged: no store
read, write or delete, and no Set-Cookie header. -/
theorem c10_websocket_passthrough (cfg : RedisSessionMiddleware) (sid : Option String)
    (freshId : String) (endData : SessionData) (store : Store) (sf df : Bool)
    (msg : Message) (h : msg.type ≠ "http.response.start") :
    scopeHandled "websocket" = true ∧
    send_wrapper cfg sid freshId endData store sf df msg = (store, msg) :=
  ⟨rfl, by simp [send_wrapper, h]⟩

/-- Witness for C10 at a concrete websocket message with mutated session data. -/
theorem c10_witness :
    scopeHandled "websocket" = true ∧
    send_wrapper { secret_key := "k" } (some "a") "f" [("u", JsonVal.str "1")] ⟨[]⟩
        false false { type := "websocket.send", headers := [] } =
      (⟨[]⟩, { type := "websocket.send", headers := [] }) :=
  c10_websocket_passthrough { secret_key := "k" } (some "a") "f" [("u", JsonVal.str "1")]
    ⟨[]⟩ false false { type := "websocket.send", headers := [] } (by decide)

/-- C5: for every request and every combination of store failures the response
message is still emitted (same type, headers at most extended by one appended
set-cookie), and a request with a previously valid cookie completes with an
empty Session Context when the store read fails. -/
theorem c5_graceful_degradation (cfg : RedisSessionMiddleware) :
    (∀ cookie store rf sf df handler freshId msg,
      ((processRequest cfg cookie store rf sf df handler freshId msg).2.2.type = msg.type ∧
       ((processRequest cfg cookie store rf sf df handler freshId msg).2.2.headers = msg.headers ∨
        ∃ c, (processRequest cfg cookie store rf sf df handler freshId msg).2.2.headers =
          msg.headers ++ [("set-cookie", c)]))) ∧
    (∀ v sid store, URLSafeSerializer.loads cfg.secret_key v = some sid →
      readSession cfg (some v) store true = (none, []) ∧
      ∀ sf df handler freshId msg,
        (processRequest cfg (some v) store true sf df handler freshId msg).1 = handler []) := by
  constructor
  · intro cookie store rf sf df handler freshId msg
    exact send_wrapper_shape cfg (readSession cfg cookie store rf).1 freshId
      (handler (readSession cfg cookie store rf).2) store sf df msg
  · intro v sid store _hl
    refine ⟨readSession_readFails cfg store v, ?_⟩
    intro sf df handler freshId msg
    simp only [processRequest, readSession_readFails]

/-- Witness for C5 at a concrete valid cookie with an unreachable store. -/
theorem c5_witness :
    readSession { secret_key := "k" } (some (URLSafeSerializer.dumps "k" "a"))
        ⟨[("session:a", StoreVal.json [("u", JsonVal.str "1")], 5)]⟩ true = (none, []) ∧
    (processRequest { secret_key := "k" } (some (URLSafeSerializer.dumps "k" "a"))
        ⟨[("session:a", StoreVal.json [("u", JsonVal.str "1")], 5)]⟩ true true true
        (fun d => d) "f" { type := "http.response.start", headers := [] }).1 = [] :=
  let h := (c5_graceful_degradation { secret_key := "k" }).2 (URLSafeSerializer.dumps "k" "a")
    "a" ⟨[("session:a", StoreVal.json [("u", JsonVal.str "1")], 5)]⟩ (loads_dumps "k" "a")
  ⟨h.1, h.2 true true (fun d => d) "f" { type := "http.response.start", headers := [] }⟩

/-- C2 (amended): whenever the read phase retained the identifier from a
verified cookie (record absent or well-formed) and the Session Context is
empty at response start, the middleware attempts to delete the store record
(best-effort: skipped only when the delete itself raises) and emits the
cookie-clearing header with Max-Age=0. -/
theorem c2_empty_end_deletes_and_clears (cfg : RedisSessionMiddleware)
    (v sid : String) (store : Store) (df : Bool)
    (handler : SessionData → SessionData) (freshId : String) (msg : Message)
    (d0 : SessionData)
    (hread : readSession cfg (some v) store false = (some sid, d0))
    (hempty : handler d0 = [])
    (hmsg : msg.type = "http.response.start") :
    processRequest cfg (some v) store false false df handler freshId msg =
      ([], (if df then store else store.delete ("session:" ++ sid)),
       { msg with headers := msg.headers ++ [("set-cookie", clearCookie cfg)] }) := by
  simp only [processRequest, hread, hempty]
  simp [send_wrapper, hmsg]

/-- Witness for C2 at a concrete valid cookie whose record exists and whose
handler clears the session. -/
theorem c2_witness :
    processRequest { secret_key := "k" } (some (URLSafeSerializer.dumps "k" "a"))
        ⟨[("session:a", StoreVal.json [("u", JsonVal.str "1")], 5)]⟩ false false false
        (fun _ => []) "f" { type := "http.response.start", headers := [] } =
      ([], ⟨[]⟩,
       { type := "http.response.start",
         headers := [("set-cookie", "session=; Path=/; HttpOnly; Max-Age=0; SameSite=lax")] }) :=
  (c2_empty_end_deletes_and_clears { secret_key := "k" } (URLSafeSerializer.dumps "k" "a") "a"
      ⟨[("session:a", StoreVal.json [("u", JsonVal.str "1")], 5)]⟩ false (fun _ => [])
      "f" { type := "http.response.start", headers := [] } [("u", JsonVal.str "1")]
      (by decide) rfl rfl).trans (by decide)

/-- C2 counterexample: a request with a cookie that verifies to "a" but whose
stored record is malformed ends empty, yet the middleware neither deletes the
record nor emits any clearing header, contradicting the claim as stated. -/
theorem c2_counterexample :
    (processRequest { secret_key := "k" } (some (URLSafeSerializer.dumps "k" "a"))
        ⟨[("session:a", StoreVal.malformed "x", 5)]⟩ false false false
        (fun d => d) "f" { type := "http.response.start", headers := [] }).2.1.get "session:a"
      = some (StoreVal.malformed "x") ∧
    (processRequest { secret_key := "k" } (some (URLSafeSerializer.dumps "k" "a"))
        ⟨[("session:a", StoreVal.malformed "x", 5)]⟩ false false false
        (fun d => d) "f" { type := "http.response.start", headers := [] }).2.2.headers = [] := by
  decide

/-- C3 (amended): whenever the read phase retained the identifier from a
verified cookie and the Session Context is non-empty at response start, the
middleware overwrites the record under "session:" + id wholesale with the
serialized end-of-request context, resets the TTL to the configured max_age
(whose default SESSION_TTL is 1209600 seconds, 14 days), and unconditionally
re-issues a signed cookie for the same identifier. -/
theorem c3_overwrite_refresh_reissue (cfg : RedisSessionMiddleware)
    (v sid : String) (store : Store) (df : Bool)
    (handler : SessionData → SessionData) (freshId : String) (msg : Message)
    (d0 : SessionData)
    (hread : readSession cfg (some v) store false = (some sid, d0))
    (hne : handler d0 ≠ [])
    (hmsg : msg.type = "http.response.start") :
    processRequest cfg (some v) store false false df handler freshId msg =
      (handler d0,
       store.setex ("session:" ++ sid) cfg.max_age (json.dumps (handler d0)),
       { msg with headers := msg.headers ++
         [("set-cookie", issueCookie cfg (URLSafeSerializer.dumps cfg.secret_key sid))] }) ∧
    SESSION_TTL = 1209600 := by
  refine ⟨?_, by decide⟩
  simp only [processRequest, hread]
  simp [send_wrapper, hmsg, hne]

/-- Witness for C3 at a concrete valid cookie whose record exists and whose
handler rewrites the session data. -/
theorem c3_witness :
    (processRequest { secret_key := "k" } (some (URLSafeSerializer.dumps "k" "a"))
        ⟨[("session:a", StoreVal.json [("u", JsonVal.str "1")], 5)]⟩ false false false
        (fun _ => [("u", JsonVal.str "2")]) "f" { type := "http.response.start", headers := [] } =
      ([("u", JsonVal.str "2")],
       ⟨[("session:a", StoreVal.json [("u", JsonVal.str "2")], 1209600)]⟩,
       { type := "http.response.start",
         headers := [("set-cookie",
           issueCookie { secret_key := "k" } (URLSafeSerializer.dumps "k" "a"))] })) ∧
    SESSION_TTL = 1209600 :=
  let h := c3_overwrite_refresh_reissue { secret_key := "k" } (URLSafeSerializer.dumps "k" "a")
    "a" ⟨[("session:a", StoreVal.json [("u", JsonVal.str "1")], 5)]⟩ false
    (fun _ => [("u", JsonVal.str "2")]) "f" { type := "http.response.start", headers := [] }
    [("u", JsonVal.str "1")] (by decide) (by decide) rfl
  ⟨h.1.trans (by decide), h.2⟩

/-- C3 counterexample: with a valid cookie for "a" but a malformed stored
record, a non-empty end state is stored under the fresh identifier "f" and
the re-issued cookie signs "f", not "a"; the record of "a" is left as is. -/
theorem c3_counterexample :
    (processRequest { secret_key := "k" } (some (URLSafeSerializer.dumps "k" "a"))
        ⟨[("session:a", StoreVal.malformed "x", 5)]⟩ false false false
        (fun _ => [("u", JsonVal.str "1")]) "f" { type := "http.response.start", headers := [] }).2.1.get "session:a"
      = some (StoreVal.malformed "x") ∧
    (processRequest { secret_key := "k" } (some (URLSafeSerializer.dumps "k" "a"))
        ⟨[("session:a", StoreVal.malformed "x", 5)]⟩ false false false
        (fun _ => [("u", JsonVal.str "1")]) "f" { type := "http.response.start", headers := [] }).2.1.get "session:f"
      = some (StoreVal.json [("u", JsonVal.str "1")]) ∧
    (processRequest { secret_key := "k" } (some (URLSafeSerializer.dumps "k" "a"))
        ⟨[("session:a", StoreVal.malformed "x", 5)]⟩ false false false
        (fun _ => [("u", JsonVal.str "1")]) "f" { type := "http.response.start", headers := [] }).2.2.headers
      = [("set-cookie", issueCookie { secret_key := "k" } (URLSafeSerializer.dumps "k" "f"))] ∧
    URLSafeSerializer.dumps "k" "f" ≠ URLSafeSerializer.dumps "k" "a" := by
  decide

/-- C4 (amended): a store read failure, or a malformed (truthy,
non-JSON-decodable) stored record, makes the read phase discard the
identifier: the whole request behaves exactly as the no-cookie (anonymous)
case — not as the record-absent case, which retains the identifier. -/
theorem c4_failure_behaves_as_no_cookie (cfg : RedisSessionMiddleware)
    (v sid : String) (store : Store) (rf sf df : Bool)
    (handler : SessionData → SessionData) (freshId : String) (msg : Message)
    (hsig : URLSafeSerializer.loads cfg.secret_key v = some sid)
    (hbad : rf = true ∨
      ∃ s, store.get ("session:" ++ sid) = some (StoreVal.malformed s) ∧ s ≠ "") :
    readSession cfg (some v) store rf = (none, []) ∧
    processRequest cfg (some v) store rf sf df handler freshId msg =
      processRequest cfg none store rf sf df handler freshId msg := by
  have hread : readSession cfg (some v) store rf = (none, []) := by
    rcases hbad with hrf | ⟨s, hget, hs⟩
    · rw [hrf]
      exact readSession_readFails cfg store v
    · have hv : v ≠ "" := by
        intro he
        rw [he, loads_empty] at hsig
        exact Option.noConfusion hsig
      simp only [readSession]
      rw [if_neg hv, hsig]
      cases rf with
      | true => simp
      | false => simp [hget, StoreVal.truthy, json.loads, hs]
  refine ⟨hread, ?_⟩
  simp only [processRequest, hread, readSession_no_cookie]

/-- Witness for C4 (amended) at a concrete valid cookie with a failing read. -/
theorem c4_witness :
    readSession { secret_key := "k" } (some (URLSafeSerializer.dumps "k" "a")) ⟨[]⟩ true
      = (none, []) ∧
    processRequest { secret_key := "k" } (some (URLSafeSerializer.dumps "k" "a")) ⟨[]⟩
        true false false (fun d => d) "f" { type := "http.response.start", headers := [] } =
      processRequest { secret_key := "k" } none ⟨[]⟩
        true false false (fun d => d) "f" { type := "http.response.start", headers := [] } :=
  c4_failure_behaves_as_no_cookie { secret_key := "k" } (URLSafeSerializer.dumps "k" "a") "a"
    ⟨[]⟩ true false false (fun d => d) "f" { type := "http.response.start", headers := [] }
    (loads_dumps "k" "a") (Or.inl rfl)

/-- C4 counterexample: a store read failure is not behaviorally identical to
an absent record — with the same valid cookie and empty end state, the
record-absent run emits the clearing header while the read-failure run emits
no header at all. -/
theorem c4_counterexample :
    (processRequest { secret_key := "k" } (some (URLSafeSerializer.dumps "k" "a")) ⟨[]⟩
        false false false (fun d => d) "f" { type := "http.response.start", headers := [] }).2.2.headers
      = [("set-cookie", "session=; Path=/; HttpOnly; Max-Age=0; SameSite=lax")] ∧
    (processRequest { secret_key := "k" } (some (URLSafeSerializer.dumps "k" "a")) ⟨[]⟩
        true false false (fun d => d) "f" { type := "http.response.start", headers := [] }).2.2.headers
      = [] := by
  decide

/-- Any infix of a middle chunk of a list is an infix of the whole list. -/
theorem infix_of_chunk (pre post : List Char) {mid x l : List Char}
    (hx : x <:+: mid) (h : l = pre ++ mid ++ post) : x <:+: l := by
  rw [h]
  exact hx.trans (List.infix_append pre mid post)

/-- A list ending in SameSite=lax cannot also end in the Secure flag. -/
theorem not_secure_suffix {l : List Char} (h : ("SameSite=lax" : String).data <:+ l) :
    ¬ ("; Secure" : String).data <:+ l := by
  intro h2
  have h3 := List.suffix_of_suffix_length_le h2 h (by decide)
  exact absurd h3 (by decide)

/-- C8 (amended): every cookie the middleware emits carries HttpOnly,
SameSite=lax and Path=/; the issued cookie carries Max-Age equal to the
configured TTL and ends in the Secure flag exactly when https_only is set;
the clearing cookie carries Max-Age=0 but never the Secure flag, even when
https_only is set. -/
theorem c8_cookie_attributes (cfg : RedisSessionMiddleware) (signed : String) :
    ("HttpOnly" : String).data <:+: (issueCookie cfg signed).data ∧
    ("SameSite=lax" : String).data <:+: (issueCookie cfg signed).data ∧
    ("Path=/" : String).data <:+: (issueCookie cfg signed).data ∧
    ("Max-Age=" ++ toString cfg.max_age).data <:+: (issueCookie cfg signed).data ∧
    (("; Secure" : String).data <:+ (issueCookie cfg signed).data ↔ cfg.https_only = true) ∧
    ("HttpOnly" : String).data <:+: (clearCookie cfg).data ∧
    ("SameSite=lax" : String).data <:+: (clearCookie cfg).data ∧
    ("Path=/" : String).data <:+: (clearCookie cfg).data ∧
    ("Max-Age=0" : String).data <:+: (clearCookie cfg).data ∧
    ¬ ("; Secure" : String).data <:+ (clearCookie cfg).data := by
  have hb1 : (issueCookie cfg signed).data =
      (cfg.session_cookie ++ "=" ++ signed).data ++
      ("; Path=/; HttpOnly; Max-Age=" : String).data ++
      ((toString cfg.max_age ++ "; SameSite=lax").data ++
        (if cfg.https_only then ("; Secure" : String).data else [])) := by
    unfold issueCookie
    by_cases hh : cfg.https_only <;> simp [hh, List.append_assoc]
  have hb2 : (issueCookie cfg signed).data =
      (cfg.session_cookie ++ "=" ++ signed ++ "; Path=/; HttpOnly; Max-Age=" ++
        toString cfg.max_age).data ++
      ("; SameSite=lax" : String).data ++
      (if cfg.https_only then ("; Secure" : String).data else []) := by
    unfold issueCookie
    by_cases hh : cfg.https_only <;> simp [hh, List.append_assoc]
  have hb3 : (issueCookie cfg signed).data =
      (cfg.session_cookie ++ "=" ++ signed ++ "; Path=/; HttpOnly; ").data ++
      ("Max-Age=" ++ toString cfg.max_age).data ++
      (("; SameSite=lax" : String).data ++
        (if cfg.https_only then ("; Secure" : String).data else [])) := by
    have hsplit : ("; Path=/; HttpOnly; Max-Age=" : String).data =
        ("; Path=/; HttpOnly; " : String).data ++ ("Max-Age=" : String).data := by decide
    unfold issueCookie
    by_cases hh : cfg.https_only <;> simp [hh, List.append_assoc, hsplit]
  have hc1 : (clearCookie cfg).data =
      cfg.session_cookie.data ++
      ("=; Path=/; HttpOnly; Max-Age=0; SameSite=lax" : String).data ++ [] := by
    simp [clearCookie]
  have hcsfx : ("SameSite=lax" : String).data <:+ (clearCookie cfg).data := by
    have hsplit : ("=; Path=/; HttpOnly; Max-Age=0; SameSite=lax" : String).data =
        ("=; Path=/; HttpOnly; Max-Age=0; " : String).data ++
        ("SameSite=lax" : String).data := by decide
    have hb : (clearCookie cfg).data =
        (cfg.session_cookie.data ++ ("=; Path=/; HttpOnly; Max-Age=0; " : String).data) ++
        ("SameSite=lax" : String).data := by
      simp [clearCookie, hsplit, List.append_assoc]
    rw [hb]
    exact List.suffix_append _ _
  have hsec : ("; Secure" : String).data <:+ (issueCookie cfg signed).data ↔
      cfg.https_only = true := by
    constructor
    · intro h
      by_contra hh
      have hh2 : cfg.https_only = false := by
        cases hhb : cfg.https_only
        · rfl
        · exact absurd hhb hh
      have hsfx : ("SameSite=lax" : String).data <:+ (issueCookie cfg signed).data := by
        have hsplit : ("; SameSite=lax" : String).data =
            ("; " : String).data ++ ("SameSite=lax" : String).data := by decide
        have hb : (issueCookie cfg signed).data =
            ((cfg.session_cookie ++ "=" ++ signed ++ "; Path=/; HttpOnly; Max-Age=" ++
              toString cfg.max_age).data ++ ("; " : String).data) ++
            ("SameSite=lax" : String).data := by
          unfold issueCookie
          simp [hh2, List.append_assoc, hsplit]
        rw [hb]
        exact List.suffix_append _ _
      exact absurd h (not_secure_suffix hsfx)
    · intro hh
      have hb : (issueCookie cfg signed).data =
          (cfg.session_cookie ++ "=" ++ signed ++ "; Path=/; HttpOnly; Max-Age=" ++
            toString cfg.max_age ++ "; SameSite=lax").data ++ ("; Secure" : String).data := by
        unfold issueCookie
        simp [hh]
      rw [hb]
      exact List.suffix_append _ _
  refine ⟨?_, ?_, ?_, ?_, hsec, ?_, ?_, ?_, ?_, not_secure_suffix hcsfx⟩
  · exact infix_of_chunk _ _ (by decide) hb1
  · exact infix_of_chunk _ _ (by decide) hb2
  · exact infix_of_chunk _ _ (by decide) hb1
  · exact infix_of_chunk _ _ (List.infix_refl _) hb3
  · exact infix_of_chunk _ _ (by decide) hc1
  · exact infix_of_chunk _ _ (by decide) hc1
  · exact infix_of_chunk _ _ (by decide) hc1
  · exact infix_of_chunk _ _ (by decide) hc1

/-- C8 counterexample: with https_only set, a run that clears the session
emits the clearing header, and that header does not contain the Secure flag
anywhere, contradicting the claim that Secure is present exactly when
https_only is true. -/
theorem c8_counterexample :
    (processRequest { secret_key := "k", https_only := true }
        (some (URLSafeSerializer.dumps "k" "a"))
        ⟨[("session:a", StoreVal.json [("u", JsonVal.str "1")], 5)]⟩ false false false
        (fun _ => []) "f" { type := "http.response.start", headers := [] }).2.2.headers =
      [("set-cookie", "session=; Path=/; HttpOnly; Max-Age=0; SameSite=lax")] ∧
    ¬ ("Secure" : String).data <:+:
      ("session=; Path=/; HttpOnly; Max-Age=0; SameSite=lax" : String).data := by
  decide
